import Mathlib

/-!
Shallow embedding of `evals/utils/api_utils.py`: two backoff-decorated
wrappers around a remote completion call, and a thread-pool based
per-attempt timeout executor (`request_with_timeout`).

Modelling conventions:
* A Python mapping (the remote call's Response, or a `**kwargs` bundle) is an
  association list `List (String × Value)`; `"error" in result` is a
  top-level key test, `result["error"]` is top-level lookup.
* Exceptions are the inductive `Exc`.  The five classes listed in the
  `backoff.on_exception` tuple are the retryable kinds; `futuresTimeout`
  is `concurrent.futures.TimeoutError` (the class caught inside
  `request_with_timeout`, NOT in the backoff tuple); `other` stands for any
  further exception class.
* The unbounded `while True` / unbounded backoff loops are given explicit
  fuel; running out of fuel is a distinguished non-result, never a value.
* Wall-clock quantities (timeouts, call durations, backoff waits) are `ℚ`.
-/

/-- JSON-like values: the opaque payloads inside a Response mapping and the
values of keyword arguments. -/
inductive Value where
  | str : String → Value
  | num : ℚ → Value
  | obj : List (String × Value) → Value

/-- A Response is the dict-like structured value returned by the remote call. -/
abbrev Response := List (String × Value)

/-- Top-level key lookup in a dict-like mapping: `m[key]` / `key in m`. -/
def getKey : List (String × Value) → String → Option Value
  | [], _ => none
  | (k, v) :: rest, key => if k = key then some v else getKey rest key

/-- The exception classes relevant to `api_utils.py`.
`serviceUnavailable`, `apiError`, `rateLimited`, `connectionError` and
`timeout` are the five classes named in both `backoff.on_exception` tuples
(`APIError` carries the payload it was constructed from, as in
`raise openai_error.APIError(result["error"])`).  `futuresTimeout` is
`concurrent.futures.TimeoutError`.  `other` is any other exception class. -/
inductive Exc where
  | serviceUnavailable
  | apiError (payload : Value)
  | rateLimited
  | connectionError
  | timeout
  | futuresTimeout
  | other (name : String)

/-- Membership in the `backoff.on_exception(..., exception=(...))` tuple:
exactly the five transient kinds are retried by the backoff layer. -/
def Exc.retryable : Exc → Bool
  | .serviceUnavailable => true
  | .apiError _ => true
  | .rateLimited => true
  | .connectionError => true
  | .timeout => true
  | .futuresTimeout => false
  | .other _ => false

/-- The wait produced for the n-th retry by `backoff.expo` under the
decorator arguments `factor=1.5, max_value=60` (expo base defaults to 2):
`min (1.5 * 2 ^ n) 60`. -/
def backoffWait (n : ℕ) : ℚ := min ((3 / 2) * 2 ^ n) 60

/-- Shared body of both decorated functions (lines 44-49 and 83-87): given
the outcome of the inner call, propagate a raised exception unchanged;
on a returned Response, if the top-level key `"error"` is present, emit one
`logging.warning(result)` record and raise `APIError(result["error"])`,
otherwise return the Response.  The second component is the list of warning
records emitted. -/
def completionBody : Except Exc Response → Except Exc Response × List Response
  | .error e => (.error e, [])
  | .ok result =>
    match getKey result "error" with
    | some payload => (.error (.apiError payload), [result])
    | none => (.ok result, [])

/-- Outcome of one run of a `backoff.on_exception`-decorated function. -/
inductive RunResult where
  /-- The decorated body returned `r` on attempt `retries` (0-based), after
  `waits` backoff delays and having emitted `logs` warning records. -/
  | success (r : Response) (retries : ℕ) (waits : List ℚ) (logs : List Response)
  /-- The body raised the non-retryable `e` on attempt `retries`, which the
  decorator re-raises to the caller unchanged. -/
  | fatal (e : Exc) (retries : ℕ) (waits : List ℚ) (logs : List Response)
  /-- The body itself never terminated (inner fuel ran out). -/
  | diverged
  /-- Fuel for the backoff loop itself ran out. -/
  | exhausted

/-- The `backoff.on_exception` driver: run the body for attempt `k`; return
its value on success; on a retryable exception wait `backoffWait k` and
retry; re-raise a non-retryable exception at once.  `body k = none` models a
body that never returns (only possible via `request_with_timeout`'s loop).
`logs` accumulates warning records across attempts; the final fuel argument
bounds the otherwise uncapped retry loop. -/
def backoffRun (body : ℕ → Option (Except Exc Response × List Response)) :
    ℕ → List Response → ℕ → RunResult
  | _, _, 0 => .exhausted
  | k, logs, fuel + 1 =>
    match body k with
    | none => .diverged
    | some (.ok r, l) => .success r k ((List.range k).map backoffWait) (logs ++ l)
    | some (.error e, l) =>
      if e.retryable then backoffRun body (k + 1) (logs ++ l) fuel
      else .fatal e k ((List.range k).map backoffWait) (logs ++ l)

/-- `openai_completion_create_retrying`: the backoff decorator applied to the
plain body.  `calls k` is the outcome of `openai.Completion.create` on
attempt `k` (a returned Response or a raised exception). -/
def openai_completion_create_retrying (calls : ℕ → Except Exc Response) (fuel : ℕ) :
    RunResult :=
  backoffRun (fun k => some (completionBody (calls k))) 0 [] fuel

/-- One attempt observed by `request_with_timeout`: the wall-clock duration
of `func(*args, **kwargs)` on the fresh worker, and what the call did
(return a value or raise). -/
structure Attempt where
  duration : ℚ
  result : Except Exc Response

/-- `request_with_timeout` (lines 52-63), per attempt index `k`:
`future.result(timeout=timeout)` returns the call's value (or re-raises the
call's exception) when the call finishes within `timeout`, and raises
`concurrent.futures.TimeoutError` otherwise.  The `except ... TimeoutError`
clause catches exactly that class — whether produced by the deadline elapse
or raised by the callable itself — and `continue`s with a fresh
single-worker executor and the same timeout; every other outcome leaves the
loop.  Returns the index of the attempt whose outcome is surfaced together
with that outcome; `none` when `fuel` runs out of the unbounded loop. -/
def request_with_timeout (timeout : ℚ) (attempts : ℕ → Attempt) :
    ℕ → ℕ → Option (ℕ × Except Exc Response)
  | _, 0 => none
  | k, fuel + 1 =>
    if (attempts k).duration ≤ timeout then
      match (attempts k).result with
      | .error .futuresTimeout => request_with_timeout timeout attempts (k + 1) fuel
      | r => some (k, r)
    else
      request_with_timeout timeout attempts (k + 1) fuel

/-- Wall-clock start time of attempt `n` inside `request_with_timeout`,
assuming attempts `0..n-1` were all passed over (timed out, or raised the
caught `TimeoutError` class).  Leaving the `with ThreadPoolExecutor(...)`
block runs `Executor.__exit__`, i.e. `shutdown(wait=True)`, which joins the
worker thread; so after a timed-out attempt the loop proceeds only once the
abandoned call finishes, and attempt `n+1` starts a full `duration` after
attempt `n` started. -/
def attemptStart (attempts : ℕ → Attempt) : ℕ → ℚ
  | 0 => 0
  | n + 1 => attemptStart attempts n + (attempts n).duration

/-- Body of `openai_chat_completion_create_retrying` (lines 78-87): route the
remote call through `request_with_timeout`, then apply the same
embedded-error reclassification as the plain body. -/
def chatBody (timeout : ℚ) (attempts : ℕ → Attempt) (execFuel : ℕ) :
    Option (Except Exc Response × List Response) :=
  (request_with_timeout timeout attempts 0 execFuel).map fun x => completionBody x.2

/-- `openai_chat_completion_create_retrying`: the backoff decorator applied
to the timeout-guarded body.  `attempts k` is the stream of executor
attempts observed during backoff attempt `k`. -/
def openai_chat_completion_create_retrying (timeout : ℚ)
    (attempts : ℕ → ℕ → Attempt) (execFuel fuel : ℕ) : RunResult :=
  backoffRun (fun k => chatBody timeout (attempts k) execFuel) 0 [] fuel

/-- `EVALS_THREAD_TIMEOUT = float(os.environ.get("EVALS_THREAD_TIMEOUT", "40"))`
(line 25): a single module-level value computed once at import from the
environment variable; `envVal` is the parsed numeric value of the variable
when it is set.  The literal default string `"40"` parses to `40`. -/
def EVALS_THREAD_TIMEOUT (envVal : Option ℚ) : ℚ := envVal.getD 40

/-- Python call binding for
`def request_with_timeout(func, *args, timeout=EVALS_THREAD_TIMEOUT, **kwargs)`:
a caller keyword named `"timeout"` binds the keyword-only parameter
(falling back to `default`), and every other keyword is collected into
`**kwargs`, which is what `executor.submit(func, *args, **kwargs)` forwards.
Returns (bound timeout value, forwarded keyword mapping). -/
def bindRequestWithTimeout (default : Value) (callerKwargs : List (String × Value)) :
    Value × List (String × Value) :=
  ((getKey callerKwargs "timeout").getD default,
   callerKwargs.filter fun kv => kv.1 ≠ "timeout")

/-! ### Unfolding lemmas for the backoff driver -/

theorem backoffRun_ok {body : ℕ → Option (Except Exc Response × List Response)}
    {k fuel : ℕ} {logs l : List Response} {r : Response}
    (h : body k = some (.ok r, l)) :
    backoffRun body k logs (fuel + 1) =
      .success r k ((List.range k).map backoffWait) (logs ++ l) := by
  simp [backoffRun, h]

theorem backoffRun_retry {body : ℕ → Option (Except Exc Response × List Response)}
    {k fuel : ℕ} {logs l : List Response} {e : Exc}
    (h : body k = some (.error e, l)) (hr : e.retryable = true) :
    backoffRun body k logs (fuel + 1) = backoffRun body (k + 1) (logs ++ l) fuel := by
  simp [backoffRun, h, hr]

theorem backoffRun_fatal {body : ℕ → Option (Except Exc Response × List Response)}
    {k fuel : ℕ} {logs l : List Response} {e : Exc}
    (h : body k = some (.error e, l)) (hr : e.retryable = false) :
    backoffRun body k logs (fuel + 1) =
      .fatal e k ((List.range k).map backoffWait) (logs ++ l) := by
  simp [backoffRun, h, hr]

/-- Any Response a run of the plain wrapper delivers as a success has no
top-level `"error"` key: an embedded-error Response is always turned into a
raised `APIError` (which, being retryable, re-enters the loop). -/
theorem backoffRun_completion_no_error {calls : ℕ → Except Exc Response} :
    ∀ {fuel k : ℕ} {logs : List Response} {r : Response} {n : ℕ}
      {w : List ℚ} {l : List Response},
      backoffRun (fun k => some (completionBody (calls k))) k logs fuel =
        .success r n w l →
      getKey r "error" = none := by
  intro fuel
  induction fuel with
  | zero =>
    intro k logs r n w l h
    simp [backoffRun] at h
  | succ f ih =>
    intro k logs r n w l h
    rcases hc : calls k with e | resp
    · have hb : (fun k => some (completionBody (calls k))) k =
          some (.error e, ([] : List Response)) := by
        simp [completionBody, hc]
      by_cases hr : e.retryable
      · rw [backoffRun_retry hb hr] at h
        exact ih h
      · rw [backoffRun_fatal hb (Bool.not_eq_true _ ▸ hr)] at h
        exact absurd h (by simp)
    · rcases hkey : getKey resp "error" with _ | p
      · have hb : (fun k => some (completionBody (calls k))) k =
            some (.ok resp, ([] : List Response)) := by
          simp [completionBody, hc, hkey]
        rw [backoffRun_ok hb] at h
        obtain ⟨hr, -, -, -⟩ := RunResult.success.inj h
        exact hr ▸ hkey
      · have hb : (fun k => some (completionBody (calls k))) k =
            some (.error (.apiError p), [resp]) := by
          simp [completionBody, hc, hkey]
        rw [backoffRun_retry hb (show Exc.retryable (.apiError p) = true from rfl)] at h
        exact ih h

/-- C1: in the plain variant, a Response with a top-level embedded-error
field is never returned: the body raises `APIError(result["error"])` and
logs exactly one warning record for it; a Response without that field is
returned unchanged on the first attempt; and no run of the wrapper ever
delivers an embedded-error Response as a success. -/
theorem plain_embedded_error_contract (calls : ℕ → Except Exc Response) (fuel : ℕ) :
    (∀ r p, getKey r "error" = some p →
      completionBody (.ok r) = (.error (.apiError p), [r])) ∧
    (∀ r, getKey r "error" = none → calls 0 = .ok r → 0 < fuel →
      openai_completion_create_retrying calls fuel = .success r 0 [] []) ∧
    (∀ r n w l, openai_completion_create_retrying calls fuel = .success r n w l →
      getKey r "error" = none) := by
  refine ⟨fun r p h => by simp [completionBody, h], fun r hkey h0 hf => ?_, fun r n w l h =>
    backoffRun_completion_no_error h⟩
  obtain ⟨f, rfl⟩ : ∃ f, fuel = f + 1 := ⟨fuel - 1, by omega⟩
  unfold openai_completion_create_retrying
  have hb : (fun k => some (completionBody (calls k))) 0 =
      some (.ok r, ([] : List Response)) := by
    simp [completionBody, h0, hkey]
  rw [backoffRun_ok hb]
  simp

def c1ErrResp : Response := [("error", .str "rate limited")]

def c1OkResp : Response := [("choices", .str "ok")]

theorem plain_embedded_error_contract_witness :
    completionBody (.ok c1ErrResp) = (.error (.apiError (.str "rate limited")), [c1ErrResp]) ∧
    openai_completion_create_retrying (fun _ => .ok c1OkResp) 3 = .success c1OkResp 0 [] [] :=
  ⟨(plain_embedded_error_contract (fun _ => .ok c1OkResp) 3).1 c1ErrResp (.str "rate limited")
      (by simp [c1ErrResp, getKey]),
   (plain_embedded_error_contract (fun _ => .ok c1OkResp) 3).2.1 c1OkResp
      (by simp [c1OkResp, getKey]) rfl (by norm_num)⟩

/-- C9: reclassification looks only at the top-level `"error"` key.  A
mapping Response without that key is returned as-is by both bodies — even
when error data is nested deeper — and when the key is present the raised
`APIError` carries exactly the value stored under it. -/
theorem embedded_error_key_is_top_level (t : ℚ) (as : ℕ → Attempt) (execFuel : ℕ) :
    (∀ r : Response, getKey r "error" = none → completionBody (.ok r) = (.ok r, [])) ∧
    (∀ (r : Response) (p : Value), getKey r "error" = some p →
      completionBody (.ok r) = (.error (.apiError p), [r])) ∧
    (∀ (j : ℕ) (r : Response), request_with_timeout t as 0 execFuel = some (j, .ok r) →
      getKey r "error" = none → chatBody t as execFuel = some (.ok r, [])) ∧
    (∀ (j : ℕ) (r : Response) (p : Value),
      request_with_timeout t as 0 execFuel = some (j, .ok r) →
      getKey r "error" = some p →
      chatBody t as execFuel = some (.error (.apiError p), [r])) := by
  refine ⟨fun r h => by simp [completionBody, h],
    fun r p h => by simp [completionBody, h],
    fun j r hq h => ?_, fun j r p hq h => ?_⟩ <;>
    simp [chatBody, hq, completionBody, h]

def c9Nested : Response := [("data", .obj [("error", .str "deep")])]

theorem embedded_error_key_is_top_level_witness :
    completionBody (.ok c9Nested) = (.ok c9Nested, []) ∧
    completionBody (.ok c1ErrResp) = (.error (.apiError (.str "rate limited")), [c1ErrResp]) :=
  ⟨(embedded_error_key_is_top_level 1 (fun _ => ⟨0, .ok []⟩) 1).1 c9Nested
      (by simp [c9Nested, getKey]),
   (embedded_error_key_is_top_level 1 (fun _ => ⟨0, .ok []⟩) 1).2.1 c1ErrResp (.str "rate limited")
      (by simp [c1ErrResp, getKey])⟩

/-! ### Keyword binding of `request_with_timeout` -/

theorem getKey_filter_self (l : List (String × Value)) (key : String) :
    getKey (l.filter fun kv => kv.1 ≠ key) key = none := by
  induction l with
  | nil => rfl
  | cons kv rest ih =>
    obtain ⟨a, b⟩ := kv
    by_cases hk : a = key
    · subst hk
      have hfc : ((a, b) :: rest).filter (fun kv => kv.1 ≠ a) =
          rest.filter (fun kv => kv.1 ≠ a) := by simp
      rw [hfc]
      exact ih
    · have hfc : ((a, b) :: rest).filter (fun kv => kv.1 ≠ key) =
          (a, b) :: rest.filter (fun kv => kv.1 ≠ key) := by simp [hk]
      rw [hfc]
      simp only [getKey]
      rw [if_neg hk]
      exact ih

theorem getKey_filter_ne (l : List (String × Value)) (key k : String) (h : k ≠ key) :
    getKey (l.filter fun kv => kv.1 ≠ key) k = getKey l k := by
  induction l with
  | nil => rfl
  | cons kv rest ih =>
    obtain ⟨a, b⟩ := kv
    by_cases hk : a = key
    · subst hk
      have hfc : ((a, b) :: rest).filter (fun kv => kv.1 ≠ a) =
          rest.filter (fun kv => kv.1 ≠ a) := by simp
      rw [hfc, ih]
      simp only [getKey]
      rw [if_neg (Ne.symm h)]
    · have hfc : ((a, b) :: rest).filter (fun kv => kv.1 ≠ key) =
          (a, b) :: rest.filter (fun kv => kv.1 ≠ key) := by simp [hk]
      rw [hfc]
      simp only [getKey]
      rw [ih]

/-- C10: a caller keyword named `timeout` binds the executor's keyword-only
parameter and is not forwarded to the remote call, while every other keyword
is forwarded with its value unchanged. -/
theorem timeout_kwarg_consumed_not_forwarded (default : Value)
    (kwargs : List (String × Value)) :
    (∀ v, getKey kwargs "timeout" = some v →
      (bindRequestWithTimeout default kwargs).1 = v) ∧
    getKey (bindRequestWithTimeout default kwargs).2 "timeout" = none ∧
    (∀ k, k ≠ "timeout" →
      getKey (bindRequestWithTimeout default kwargs).2 k = getKey kwargs k) := by
  refine ⟨fun v h => by simp [bindRequestWithTimeout, h],
    getKey_filter_self kwargs "timeout",
    fun k hk => getKey_filter_ne kwargs "timeout" k hk⟩

def c10Kwargs : List (String × Value) := [("timeout", .num 5), ("model", .str "gpt-4")]

theorem timeout_kwarg_consumed_not_forwarded_witness :
    (bindRequestWithTimeout (.num 40) c10Kwargs).1 = .num 5 ∧
    getKey (bindRequestWithTimeout (.num 40) c10Kwargs).2 "timeout" = none ∧
    getKey (bindRequestWithTimeout (.num 40) c10Kwargs).2 "model" =
      getKey c10Kwargs "model" :=
  ⟨(timeout_kwarg_consumed_not_forwarded (.num 40) c10Kwargs).1 (.num 5)
      (by simp [c10Kwargs, getKey]),
   (timeout_kwarg_consumed_not_forwarded (.num 40) c10Kwargs).2.1,
   (timeout_kwarg_consumed_not_forwarded (.num 40) c10Kwargs).2.2 "model" (by simp)⟩

/-- C8: the module-level default timeout is a single environment-derived
value that equals 40 when the variable is unset, and a call without an
explicit `timeout` keyword binds exactly that value as the per-attempt
deadline. -/
theorem default_thread_timeout (envVal : Option ℚ) (kwargs : List (String × Value))
    (h : getKey kwargs "timeout" = none) :
    EVALS_THREAD_TIMEOUT none = 40 ∧
    (bindRequestWithTimeout (.num (EVALS_THREAD_TIMEOUT envVal)) kwargs).1 =
      .num (EVALS_THREAD_TIMEOUT envVal) :=
  ⟨rfl, by simp [bindRequestWithTimeout, h]⟩

theorem default_thread_timeout_witness :
    EVALS_THREAD_TIMEOUT none = 40 ∧
    (bindRequestWithTimeout (.num (EVALS_THREAD_TIMEOUT none)) [("model", .str "gpt-4")]).1 =
      .num (EVALS_THREAD_TIMEOUT none) :=
  default_thread_timeout none [("model", .str "gpt-4")] (by simp [getKey])

/-! ### Bounded-Time Call Executor lemmas -/

/-- When attempt `k` finishes within the deadline and did not raise the
caught `TimeoutError` class, the loop surfaces exactly that attempt's
outcome. -/
theorem request_with_timeout_complete (t : ℚ) (as : ℕ → Attempt) (k fuel : ℕ)
    (hd : (as k).duration ≤ t) (hr : (as k).result ≠ .error .futuresTimeout) :
    request_with_timeout t as k (fuel + 1) = some (k, (as k).result) := by
  rcases hres : (as k).result with e | r
  · cases e
    case futuresTimeout => exact absurd hres hr
    all_goals simp [request_with_timeout, hd, hres]
  · simp [request_with_timeout, hd, hres]

/-- When attempt `k` exceeds the deadline, `future.result` raises
`TimeoutError`, the clause catches it, and the loop moves on to attempt
`k + 1` with the same timeout. -/
theorem request_with_timeout_elapse (t : ℚ) (as : ℕ → Attempt) (k fuel : ℕ)
    (hd : ¬(as k).duration ≤ t) :
    request_with_timeout t as k (fuel + 1) = request_with_timeout t as (k + 1) fuel := by
  simp [request_with_timeout, hd]

/-- A `TimeoutError` raised by the callable itself within the deadline is
caught by the same clause, and the loop moves on as well. -/
theorem request_with_timeout_caught (t : ℚ) (as : ℕ → Attempt) (k fuel : ℕ)
    (hd : (as k).duration ≤ t) (hres : (as k).result = .error .futuresTimeout) :
    request_with_timeout t as k (fuel + 1) = request_with_timeout t as (k + 1) fuel := by
  simp [request_with_timeout, hd, hres]

/-- Soundness of the executor loop: any surfaced outcome is the verbatim
outcome of some attempt that finished within the deadline, and is never of
the caught `TimeoutError` class. -/
theorem request_with_timeout_sound (t : ℚ) (as : ℕ → Attempt) :
    ∀ (fuel k j : ℕ) (res : Except Exc Response),
      request_with_timeout t as k fuel = some (j, res) →
      k ≤ j ∧ (as j).duration ≤ t ∧ res = (as j).result ∧
        res ≠ .error .futuresTimeout := by
  intro fuel
  induction fuel with
  | zero =>
    intro k j res h
    simp [request_with_timeout] at h
  | succ f ih =>
    intro k j res h
    by_cases hd : (as k).duration ≤ t
    · by_cases hft : (as k).result = .error .futuresTimeout
      · rw [request_with_timeout_caught t as k f hd hft] at h
        obtain ⟨h1, h2, h3, h4⟩ := ih (k + 1) j res h
        exact ⟨by omega, h2, h3, h4⟩
      · rw [request_with_timeout_complete t as k f hd hft] at h
        injection h with h
        obtain ⟨hkj, hres⟩ := Prod.mk.inj h
        subst hkj
        subst hres
        exact ⟨le_refl _, hd, rfl, hft⟩
    · rw [request_with_timeout_elapse t as k f hd] at h
      obtain ⟨h1, h2, h3, h4⟩ := ih (k + 1) j res h
      exact ⟨by omega, h2, h3, h4⟩

/-- C4: when the first two attempts exceed the deadline and the third
finishes within it, the executor surfaces exactly the third attempt's
outcome after exactly two discarded attempts, whatever the discarded
attempts' (never observed) results were. -/
theorem executor_returns_third_attempt (t : ℚ) (as : ℕ → Attempt) (fuel : ℕ)
    (h0 : t < (as 0).duration) (h1 : t < (as 1).duration)
    (h2 : (as 2).duration ≤ t) (hr : (as 2).result ≠ .error .futuresTimeout) :
    request_with_timeout t as 0 (fuel + 3) = some (2, (as 2).result) := by
  rw [show fuel + 3 = (fuel + 2) + 1 from rfl,
    request_with_timeout_elapse t as 0 (fuel + 2) (not_le.2 h0),
    show fuel + 2 = (fuel + 1) + 1 from rfl,
    request_with_timeout_elapse t as 1 (fuel + 1) (not_le.2 h1)]
  exact request_with_timeout_complete t as 2 fuel h2 hr

def c4Attempts : ℕ → Attempt
  | 0 => ⟨50, .error (.other "discarded0")⟩
  | 1 => ⟨45, .ok [("choices", .str "discarded1")]⟩
  | _ + 2 => ⟨1, .ok [("choices", .str "third")]⟩

theorem executor_returns_third_attempt_witness :
    request_with_timeout 40 c4Attempts 0 3 = some (2, .ok [("choices", .str "third")]) :=
  executor_returns_third_attempt 40 c4Attempts 0 (by norm_num [c4Attempts])
    (by norm_num [c4Attempts]) (by norm_num [c4Attempts]) (by simp [c4Attempts])

/-- C5: an exception raised by the callable, other than the caught
`TimeoutError` class, propagates from the executor immediately on the first
attempt, unchanged and with zero further attempts. -/
theorem executor_propagates_callable_exception (t : ℚ) (as : ℕ → Attempt) (e : Exc)
    (fuel : ℕ) (hd : (as 0).duration ≤ t) (he : (as 0).result = .error e)
    (hne : e ≠ .futuresTimeout) :
    request_with_timeout t as 0 (fuel + 1) = some (0, .error e) := by
  rw [request_with_timeout_complete t as 0 fuel hd (by simp [he, hne]), he]

theorem executor_propagates_callable_exception_witness :
    request_with_timeout 40 (fun _ => ⟨1, .error (.other "ValueError")⟩) 0 1 =
      some (0, .error (.other "ValueError")) :=
  executor_propagates_callable_exception 40 (fun _ => ⟨1, .error (.other "ValueError")⟩)
    (.other "ValueError") 0 (by norm_num) rfl (by simp)

/-- C6: in the timeout-guarded variant, any `Timeout`-kind exception that
reaches the backoff layer was raised by the remote call itself on an attempt
that finished within the deadline; the executor's own internal timeouts
(the caught `TimeoutError` class) never surface to the backoff layer. -/
theorem chat_timeout_only_from_remote (t : ℚ) (as : ℕ → Attempt) (execFuel : ℕ) :
    (∀ logs, chatBody t as execFuel = some (.error .timeout, logs) →
      ∃ j, (as j).duration ≤ t ∧ (as j).result = .error .timeout) ∧
    (∀ o, request_with_timeout t as 0 execFuel = some o →
      o.2 ≠ .error .futuresTimeout) := by
  constructor
  · intro logs h
    unfold chatBody at h
    rcases hq : request_with_timeout t as 0 execFuel with _ | x
    · rw [hq] at h
      simp at h
    · rw [hq] at h
      obtain ⟨j, res⟩ := x
      have hsound := request_with_timeout_sound t as execFuel 0 j res hq
      simp only [Option.map_some'] at h
      injection h with h
      rcases hres : res with e | r
      · subst hres
        simp only [completionBody] at h
        obtain ⟨h1, -⟩ := Prod.mk.inj h
        injection h1 with h1
        subst h1
        exact ⟨j, hsound.2.1, hsound.2.2.1.symm⟩
      · subst hres
        rcases hkey : getKey r "error" with _ | p <;> simp [completionBody, hkey] at h
  · intro o h
    exact (request_with_timeout_sound t as execFuel 0 o.1 o.2 h).2.2.2

def c6Attempts : ℕ → Attempt
  | 0 => ⟨20, .ok [("choices", .str "abandoned")]⟩
  | _ + 1 => ⟨1, .error .timeout⟩

theorem chat_timeout_only_from_remote_witness :
    ∃ j, (c6Attempts j).duration ≤ 10 ∧ (c6Attempts j).result = .error .timeout :=
  (chat_timeout_only_from_remote 10 c6Attempts 3).1 []
    (by norm_num [chatBody, request_with_timeout, c6Attempts, completionBody])

/-! ### Backoff schedule -/

theorem backoffWait_le_succ (n : ℕ) : backoffWait n ≤ backoffWait (n + 1) := by
  unfold backoffWait
  have h : (3 / 2 : ℚ) * 2 ^ n ≤ (3 / 2) * 2 ^ (n + 1) := by
    gcongr
    · norm_num
    · omega
  exact min_le_min h le_rfl

theorem backoffWait_le_cap (n : ℕ) : backoffWait n ≤ 60 := min_le_right _ _

/-- If the body raises retryable exceptions (without logging) on attempts
`k .. k+N-1` and returns `r` on attempt `k+N`, the driver returns `r` from
attempt `k+N`, having waited the `backoffWait` schedule along the way. -/
theorem backoffRun_consume (body : ℕ → Option (Except Exc Response × List Response))
    (r : Response) :
    ∀ (N k fuel : ℕ) (logs : List Response), N < fuel →
      (∀ i, i < N → ∃ e, body (k + i) = some (.error e, []) ∧ e.retryable = true) →
      body (k + N) = some (.ok r, []) →
      backoffRun body k logs fuel =
        .success r (k + N) ((List.range (k + N)).map backoffWait) logs := by
  intro N
  induction N with
  | zero =>
    intro k fuel logs hf herr hok
    obtain ⟨f, rfl⟩ : ∃ f, fuel = f + 1 := ⟨fuel - 1, by omega⟩
    rw [backoffRun_ok (by simpa using hok)]
    simp
  | succ N ih =>
    intro k fuel logs hf herr hok
    obtain ⟨f, rfl⟩ : ∃ f, fuel = f + 1 := ⟨fuel - 1, by omega⟩
    obtain ⟨e, he, her⟩ := herr 0 (Nat.succ_pos N)
    rw [backoffRun_retry (by simpa using he) her]
    have hshift : ∀ i, i < N → ∃ e, body (k + 1 + i) = some (.error e, []) ∧
        e.retryable = true := fun i hi => by
      have := herr (i + 1) (by omega)
      rwa [show k + (i + 1) = k + 1 + i by omega] at this
    have := ih (k + 1) f (logs ++ []) (by omega) hshift
      (by rwa [show k + 1 + N = k + (N + 1) by omega])
    rw [show k + 1 + N = k + (N + 1) by omega] at this
    simpa using this

/-- C2: if the calls raise retryable exceptions on the first `N` attempts and
succeed on attempt `N`, the wrapper performs exactly `N` retries, returns the
success result, and the delay schedule is `backoffWait 0, …, backoffWait
(N-1)`: the `backoff.expo` sequence scaled by the factor 1.5, capped at 60,
hence non-decreasing. -/
theorem retry_schedule_exponential (calls : ℕ → Except Exc Response) (r : Response)
    (N fuel : ℕ) :
    (∀ n, backoffWait n = min ((3 / 2) * 2 ^ n) 60 ∧
      backoffWait n ≤ backoffWait (n + 1) ∧ backoffWait n ≤ 60) ∧
    ((∀ i, i < N → ∃ e, calls i = .error e ∧ e.retryable = true) →
      calls N = .ok r → getKey r "error" = none → N < fuel →
      openai_completion_create_retrying calls fuel =
        .success r N ((List.range N).map backoffWait) []) := by
  refine ⟨fun n => ⟨rfl, backoffWait_le_succ n, backoffWait_le_cap n⟩,
    fun herr hok hkey hf => ?_⟩
  unfold openai_completion_create_retrying
  have := backoffRun_consume (fun k => some (completionBody (calls k))) r N 0 fuel []
    hf
    (fun i hi => by
      obtain ⟨e, he, her⟩ := herr i hi
      exact ⟨e, by simp [completionBody, he], her⟩)
    (by simp [completionBody, hok, hkey])
  simpa using this

def c2Calls : ℕ → Except Exc Response
  | 0 => .error .rateLimited
  | 1 => .error .serviceUnavailable
  | _ + 2 => .ok [("choices", .str "done")]

theorem retry_schedule_exponential_witness :
    openai_completion_create_retrying c2Calls 4 =
      .success [("choices", .str "done")] 2 ((List.range 2).map backoffWait) [] :=
  (retry_schedule_exponential c2Calls [("choices", .str "done")] 2 4).2
    (fun i hi => by
      match i, hi with
      | 0, _ => exact ⟨.rateLimited, rfl, rfl⟩
      | 1, _ => exact ⟨.serviceUnavailable, rfl, rfl⟩)
    rfl (by simp [getKey]) (by norm_num)

/-! ### Non-retryable exceptions (C3) -/

def c3Streams : ℕ → ℕ → Attempt := fun _ n =>
  match n with
  | 0 => ⟨1, .error .futuresTimeout⟩
  | _ + 1 => ⟨1, .ok [("choices", .str "late")]⟩

/-- C3 counterexample: `concurrent.futures.TimeoutError` is not in the
retryable set, yet when the remote call raises it on its first attempt in
the timeout-guarded variant the wrapper does not raise it to the caller: the
executor's `except` clause catches it and retries, and the run succeeds. -/
theorem nonretryable_immediate_counterexample :
    (c3Streams 0 0).result = .error .futuresTimeout ∧
    Exc.retryable .futuresTimeout = false ∧
    openai_chat_completion_create_retrying 10 c3Streams 5 5 =
      .success [("choices", .str "late")] 0 [] [] ∧
    openai_chat_completion_create_retrying 10 c3Streams 5 5 ≠
      .fatal .futuresTimeout 0 [] [] := by
  have hq : request_with_timeout 10 (c3Streams 0) 0 5 =
      some (1, .ok [("choices", .str "late")]) := by
    rw [show (5 : ℕ) = 4 + 1 from rfl,
      request_with_timeout_caught 10 (c3Streams 0) 0 4 (by norm_num [c3Streams]) rfl,
      show (4 : ℕ) = 3 + 1 from rfl,
      request_with_timeout_complete 10 (c3Streams 0) 1 3 (by norm_num [c3Streams])
        (by simp [c3Streams])]
    rfl
  have hb : (fun k => chatBody 10 (c3Streams k) 5) 0 =
      some (.ok [("choices", .str "late")], ([] : List Response)) := by
    simp [chatBody, hq, completionBody, getKey]
  have heval : openai_chat_completion_create_retrying 10 c3Streams 5 5 =
      .success [("choices", .str "late")] 0 [] [] := by
    unfold openai_chat_completion_create_retrying
    rw [show (5 : ℕ) = 4 + 1 from rfl,
      @backoffRun_ok (fun k => chatBody 10 (c3Streams k) 5) 0 4 [] []
        [("choices", .str "late")] hb]
    simp
  refine ⟨rfl, rfl, heval, ?_⟩
  rw [heval]
  intro h
  exact RunResult.noConfusion h

/-- C3 (amended): a first-attempt exception outside the retryable set is
re-raised to the caller unchanged with zero backoff retries by the plain
variant for every such exception, and by the timeout-guarded variant for
every such exception other than the executor's own caught `TimeoutError`
class (which the executor absorbs and retries instead). -/
theorem nonretryable_raises_immediately (calls : ℕ → Except Exc Response) (t : ℚ)
    (as : ℕ → ℕ → Attempt) (e : Exc) (fuel execFuel : ℕ) :
    (calls 0 = .error e → e.retryable = false → 0 < fuel →
      openai_completion_create_retrying calls fuel = .fatal e 0 [] []) ∧
    ((as 0 0).duration ≤ t → (as 0 0).result = .error e → e.retryable = false →
      e ≠ .futuresTimeout → 0 < fuel → 0 < execFuel →
      openai_chat_completion_create_retrying t as execFuel fuel = .fatal e 0 [] []) := by
  constructor
  · intro h0 hr hf
    obtain ⟨f, rfl⟩ : ∃ f, fuel = f + 1 := ⟨fuel - 1, by omega⟩
    unfold openai_completion_create_retrying
    have hb : (fun k => some (completionBody (calls k))) 0 =
        some (.error e, ([] : List Response)) := by simp [completionBody, h0]
    rw [backoffRun_fatal hb hr]
    simp
  · intro hd hres hr hne hf hef
    obtain ⟨f, rfl⟩ : ∃ f, fuel = f + 1 := ⟨fuel - 1, by omega⟩
    obtain ⟨ef, rfl⟩ : ∃ ef, execFuel = ef + 1 := ⟨execFuel - 1, by omega⟩
    unfold openai_chat_completion_create_retrying
    have hq : request_with_timeout t (as 0) 0 (ef + 1) = some (0, .error e) := by
      rw [request_with_timeout_complete t (as 0) 0 ef hd (by simp [hres, hne]), hres]
    have hb : (fun k => chatBody t (as k) (ef + 1)) 0 =
        some (.error e, ([] : List Response)) := by
      simp [chatBody, hq, completionBody]
    rw [@backoffRun_fatal (fun k => chatBody t (as k) (ef + 1)) 0 f [] [] e hb hr]
    simp

theorem nonretryable_raises_immediately_witness :
    openai_completion_create_retrying (fun _ => .error (.other "TypeError")) 1 =
      .fatal (.other "TypeError") 0 [] [] ∧
    openai_chat_completion_create_retrying 40
        (fun _ _ => ⟨1, .error (.other "TypeError")⟩) 1 1 =
      .fatal (.other "TypeError") 0 [] [] :=
  ⟨(nonretryable_raises_immediately (fun _ => .error (.other "TypeError")) 40
      (fun _ _ => ⟨1, .error (.other "TypeError")⟩) (.other "TypeError") 1 1).1
      rfl rfl one_pos,
   (nonretryable_raises_immediately (fun _ => .error (.other "TypeError")) 40
      (fun _ _ => ⟨1, .error (.other "TypeError")⟩) (.other "TypeError") 1 1).2
      (by norm_num) rfl rfl (by simp) one_pos one_pos⟩

/-! ### Timing of re-attempts (C7) -/

def c7Attempts : ℕ → Attempt
  | 0 => ⟨100, .ok [("choices", .str "slow")]⟩
  | _ + 1 => ⟨0, .ok [("choices", .str "fast")]⟩

/-- C7 counterexample: with timeout 1, attempt 0's call runs for 100 time
units, so it times out; but attempt 1 does not start at time 1 (the elapse
point): leaving the `with` block joins the abandoned worker, so attempt 1
starts only at time 100.  The abandoned attempt's still-running work does
delay the start of the next attempt. -/
theorem executor_no_delay_counterexample :
    1 < (c7Attempts 0).duration ∧ attemptStart c7Attempts 1 ≠ 0 + 1 := by
  norm_num [c7Attempts, attemptStart]

/-- C7 (amended): on elapse the executor abandons the attempt's result and
retries with a fresh worker and the same timeout, repeating until an attempt
completes within the bound; but the next attempt starts only once the
abandoned call finishes (the worker pool is joined on exiting the `with`
block), a full `duration` after the abandoned attempt started. -/
theorem executor_reattempts_after_join (t : ℚ) (as : ℕ → Attempt) (k fuel n : ℕ)
    (h : t < (as k).duration) :
    request_with_timeout t as k (fuel + 1) = request_with_timeout t as (k + 1) fuel ∧
    attemptStart as (n + 1) = attemptStart as n + (as n).duration :=
  ⟨request_with_timeout_elapse t as k fuel (not_le.2 h), rfl⟩

theorem executor_reattempts_after_join_witness :
    request_with_timeout 1 c7Attempts 0 1 = request_with_timeout 1 c7Attempts 1 0 ∧
    attemptStart c7Attempts 1 = attemptStart c7Attempts 0 + (c7Attempts 0).duration :=
  executor_reattempts_after_join 1 c7Attempts 0 0 0 (by norm_num [c7Attempts])
